import Mathlib

/-!
Verification of the data-normalization and query engine of the
xml-data-visualizer repository: the tabular parser/combiner
(`src/backend/utils/csv_processor.py`, `src/scripts/csv_processor.py`),
the markup tree builder and traversal kit
(`src/backend/utils/xml_processor.py`), and the row query service
(`src/backend/services/csv_query.py`, `csv_storage.py`,
`src/backend/routers/csv_parser.py`), shallowly embedded in Lean.
-/

set_option autoImplicit false

namespace XmlViz

/-! ## String helpers

Python `str.lower` is modelled character-wise with `Char.toLower`, and the
Python substring test `needle in hay` as an infix check over the character
lists of both strings. -/

def lowerData (s : String) : List Char := s.data.map Char.toLower

/-- Does the second list start with the first one? -/
def startsList : List Char → List Char → Bool
  | [], _ => true
  | _ :: _, [] => false
  | a :: as, b :: bs => a = b && startsList as bs

/-- Does `n` occur as a contiguous run inside the second list? -/
def subList (n : List Char) : List Char → Bool
  | [] => n.isEmpty
  | c :: t => startsList n (c :: t) || subList n t

/-- Python `query_lower in field.lower()` for an already-lowercased query. -/
def pyInLower (qLower : List Char) (hay : String) : Bool :=
  subList qLower (lowerData hay)

/-! ## Tabular parser and combiner

`parse_csv_content` feeds the blob to `csv.DictReader`.  We model a blob
after line/field splitting: a header row plus raw field-lists.  The
`DictReader` dictionary for one raw row maps each header to its field,
filling a row shorter than the header with Python `None` (`restval`),
modelled as `Option.none`; extra trailing fields go to the `None` restkey,
which `combine_csv_files` never reads and which we therefore omit. -/

structure Blob where
  header : List String
  rows : List (List String)
deriving DecidableEq

/-- Python dict assignment `d[k] = v`: overwrite in place if the key exists,
otherwise append (insertion order preserved). -/
def dictUpdate (d : List (String × Option String)) (k : String) (v : Option String) :
    List (String × Option String) :=
  if (d.map Prod.fst).contains k then
    d.map (fun p => if p.1 = k then (p.1, v) else p)
  else d ++ [(k, v)]

/-- The dictionary `csv.DictReader` yields for raw row `r` under fieldnames
`hs`: `dict(zip(hs, r))`, then `d[key] = None` for each missing trailing
fieldname. -/
def dictReaderRow (hs r : List String) : List (String × Option String) :=
  let d := (List.zip hs r).foldl (fun d p => dictUpdate d p.1 (some p.2)) []
  (hs.drop r.length).foldl (fun d k => dictUpdate d k none) d

/-- Python `row.get(h, "")`: the stored value (possibly `None`) when the key
exists, the default `""` otherwise. -/
def pyGet (d : List (String × Option String)) (h : String) : Option String :=
  match d.lookup h with
  | some v => v
  | none => some ("")

/-- First pass inner loop of `combine_csv_files`: append each header not yet
present.  The code keeps a companion `all_headers_set` for lookup; its
membership always coincides with membership in the ordered list, so the
model tests the list directly. -/
def addNewHeaders (acc : List String) (hs : List String) : List String :=
  hs.foldl (fun acc h => if h ∈ acc then acc else acc ++ [h]) acc

/-- First pass of `combine_csv_files` (backend): blob 0's header verbatim,
then new names of later blobs in their internal order. -/
def combineHeaders : List Blob → List String
  | [] => []
  | b0 :: rest => rest.foldl (fun acc b => addNewHeaders acc b.header) b0.header

/-- Second pass of `combine_csv_files`: every record re-keyed by the full
header union, `row.get(header, "")` per column. -/
def combineRows (blobs : List Blob) (allHeaders : List String) :
    List (List (String × Option String)) :=
  (blobs.map (fun b =>
    (b.rows.map (dictReaderRow b.header)).map (fun d =>
      allHeaders.map (fun h => (h, pyGet d h))))).flatten

/-- Stands for the pydantic validation failure raised by
`CsvRow(data=row)` when a cell holds `None`: the `Dict[str, str]` field
rejects a non-string value.  (The exact diagnostic text is a placeholder of
the model.) -/
def pydanticNoneMsg : String := "none is not an allowed value"

/-- `CsvRow(data=row)` validation: every cell must be an actual string. -/
def validateRow : List (String × Option String) → Except String (List (String × String))
  | [] => .ok []
  | (k, some v) :: t =>
    match validateRow t with
    | .ok tl => .ok ((k, v) :: tl)
    | .error e => .error e
  | (_, none) :: _ => .error pydanticNoneMsg

def validateRows : List (List (String × Option String)) →
    Except String (List (List (String × String)))
  | [] => .ok []
  | d :: t =>
    match validateRow d, validateRows t with
    | .ok r, .ok rs => .ok (r :: rs)
    | .error e, _ => .error e
    | _, .error e => .error e

/-- The `CsvData` pydantic model: combined headers and validated rows. -/
structure CsvDataM where
  headers : List String
  rows : List (List (String × String))
  total_rows : Nat
  total_columns : Nat
deriving DecidableEq

/-- `combine_csv_files` (backend `utils/csv_processor.py`): header union in
first pass, re-keyed rows in second pass, `CsvRow` validation on the way
into the `CsvData` model. -/
def combine_csv_files (blobs : List Blob) : Except String CsvDataM :=
  let allHeaders := combineHeaders blobs
  match validateRows (combineRows blobs allHeaders) with
  | .ok rows => .ok ⟨allHeaders, rows, rows.length, allHeaders.length⟩
  | .error e => .error e

/-- Python string comparison: lexicographic by code point. -/
def lexLeB : List Char → List Char → Bool
  | [], _ => true
  | _ :: _, [] => false
  | a :: as, b :: bs => if a = b then lexLeB as bs else decide (a.toNat < b.toNat)

def strLeB (a b : String) : Bool := lexLeB a.data b.data

def orderedInsertStr (a : String) : List String → List String
  | [] => [a]
  | b :: l => if strLeB a b then a :: b :: l else b :: orderedInsertStr a l

/-- Python `sorted` on strings, modelled as an insertion sort over the
code-point lexicographic order. -/
def sortStrings : List String → List String
  | [] => []
  | b :: l => orderedInsertStr b (sortStrings l)

/-- `combine_csv_files` of `src/scripts/csv_processor.py`, header part:
`sorted(list(all_headers))` over the *set* of all headers — the sorted
deduplicated union, not the first-seen union. -/
def scriptsCombineHeaders (blobs : List Blob) : List String :=
  sortStrings (addNewHeaders [] ((blobs.map (·.header)).flatten))

/-- Modelled from the spec (§4.2 / §8): the ordered union of the blobs'
headers, first-seen order, no duplicates.  Used as the specification side of
the refinement claim C1. -/
def specFirstSeenUnion (hss : List (List String)) : List String :=
  hss.foldl addNewHeaders []

/-- The `/api/csv/parse-batch` route rejects an empty upload list
(`No files provided`, HTTP 400) before `combine_csv_files` runs.  File
reading, size validation and storage are external and elided. -/
def parse_csv_batch (blobs : List Blob) : Except String CsvDataM :=
  if blobs.isEmpty then .error ("No files provided")
  else combine_csv_files blobs

/-! ## Hierarchy synthesizer (`csv_to_hierarchical`, backend)

The Python function mutates a `node_map` keyed by segment-path tuples and
appends freshly created nodes to their parent's `children` list in place.
The state is modelled explicitly: `nodePaths` is `node_map` (key to the
`path` computed at creation) and `childKeys` records each node's ordered
children by key (root key `[]`).  The `current_node not in
parent_node.children` test compares by key: `node_map` guarantees one node
per key, and nodes with different keys differ in their `path` field, so
Python's value equality coincides with key equality. -/

/-- Python `s.split(sep)` for a one-character separator (no collapsing of
empty segments), by structural recursion over the characters. -/
def splitOnCharAux (sep : Char) : List Char → List Char → List String
  | [], cur => [String.mk cur.reverse]
  | c :: rest, cur =>
    if c = sep then String.mk cur.reverse :: splitOnCharAux sep rest []
    else splitOnCharAux sep rest (c :: cur)

/-- `parse_header_hierarchy(header)`: `header.split("_")`. -/
def parse_header_hierarchy (h : String) : List String :=
  splitOnCharAux ('_') h.data []

inductive CsvNode where
  | mk (name : String) (path : String) (value : Option String)
       (children : List CsvNode) (attributes : List (String × String))

def CsvNode.name : CsvNode → String
  | .mk n _ _ _ _ => n

def CsvNode.path : CsvNode → String
  | .mk _ p _ _ _ => p

def CsvNode.value : CsvNode → Option String
  | .mk _ _ v _ _ => v

def CsvNode.children : CsvNode → List CsvNode
  | .mk _ _ _ cs _ => cs

def CsvNode.attributes : CsvNode → List (String × String)
  | .mk _ _ _ _ a => a

structure HSt where
  nodePaths : List (List String × String)
  childKeys : List (List String × List (List String))

def initHSt : HSt := ⟨[], [([], [])]⟩

/-- `get_or_create_node(parts, parent_path)`: return the existing node for
`parts`, the root for the empty tuple, or create a node whose `path`
extends `parent_path` (special-cased at depth 1). -/
def getOrCreateNode (st : HSt) (parts : List String) (parentPath : String) :
    String × HSt :=
  match st.nodePaths.lookup parts with
  | some p => (p, st)
  | none =>
    if parts.isEmpty then ("/root", st)
    else
      let nm := parts.getLastD ("")
      let path := if parentPath ≠ "/root" then parentPath ++ "/" ++ nm else "/" ++ nm
      (path, ⟨st.nodePaths ++ [(parts, path)], st.childKeys ++ [(parts, [])]⟩)

/-- `if current_node not in parent_node.children:
parent_node.children.append(current_node)`. -/
def appendChildKey (st : HSt) (parentKey childKey : List String) : HSt :=
  let cur := (st.childKeys.lookup parentKey).getD []
  if childKey ∈ cur then st
  else ⟨st.nodePaths,
        st.childKeys.map (fun p => if p.1 = parentKey then (p.1, p.2 ++ [childKey]) else p)⟩

/-- One iteration of `for i in range(1, len(parts) + 1)`. -/
def hierStep (st : HSt) (parts : List String) (i : Nat) : HSt :=
  let parentParts := parts.take (i - 1)
  let currentParts := parts.take i
  let pp :=
    if parentParts.isEmpty then ("/root", st)
    else getOrCreateNode st parentParts ("/root")
  let cur := getOrCreateNode pp.2 currentParts pp.1
  appendChildKey cur.2 parentParts currentParts

def processHeader (st : HSt) (header : String) : HSt :=
  let parts := parse_header_hierarchy header
  (List.range parts.length).foldl (fun st i0 => hierStep st parts (i0 + 1)) st

/-- Materialize the mutated object graph as a tree.  `fuel` only bounds the
recursion; `csv_to_hierarchical` passes one more than the deepest key, which
is enough since a node's children carry strictly longer keys. -/
def buildCsvNode (st : HSt) : Nat → List String → CsvNode
  | 0, _ => .mk ("") ("") none [] []
  | fuel + 1, key =>
    let nm := if key.isEmpty then ("root") else key.getLastD ("")
    let path := if key.isEmpty then ("/root") else (st.nodePaths.lookup key).getD ("")
    .mk nm path none (((st.childKeys.lookup key).getD []).map (buildCsvNode st fuel)) []

def csv_to_hierarchical (data : CsvDataM) : CsvNode :=
  let st := data.headers.foldl processHeader initHSt
  buildCsvNode st
    (1 + (data.headers.map (fun h => (parse_header_hierarchy h).length)).foldr max 0) []

/-! ## Tree traversal kit: flatten, search, stats -/

/-- One record of `flatten_csv_node`: `{path, name, value, attributes}`. -/
structure CsvFlatRec where
  path : String
  name : String
  value : Option String
  attributes : List (String × String)
deriving DecidableEq

mutual

/-- `flatten_csv_node(node, result)` with its explicit accumulator: append
the node's record, then recurse into the children in order. -/
def flattenCsvAux : CsvNode → List CsvFlatRec → List CsvFlatRec
  | .mk nm p v cs attrs, acc => flattenCsvListAux cs (acc ++ [⟨p, nm, v, attrs⟩])

def flattenCsvListAux : List CsvNode → List CsvFlatRec → List CsvFlatRec
  | [], acc => acc
  | c :: cs, acc => flattenCsvListAux cs (flattenCsvAux c acc)

end

/-- `flatten_csv_node(node)` — called with no accumulator (`result=None`
allocates a fresh list). -/
def flatten_csv_node (n : CsvNode) : List CsvFlatRec := flattenCsvAux n []

mutual

def csvSize : CsvNode → Nat
  | .mk _ _ _ cs _ => 1 + csvSizeList cs

def csvSizeList : List CsvNode → Nat
  | [] => 0
  | c :: cs => csvSize c + csvSizeList cs

end

/-- Row search of `search_csv_data`, with the query already lowercased
(the code lowers it once on entry).  A row matches if any header contains
the query (when `"header"` is enabled) or any truthy cell value contains it
(when `"value"` is enabled); the `not match_found` short-circuit in the
source only skips redundant work and does not change the boolean. -/
def searchCsvLower (data : CsvDataM) (qLower : List Char) (searchIn : List String) :
    List (List (String × String)) :=
  data.rows.filter (fun row =>
    (searchIn.contains ("header") && data.headers.any (fun h => pyInLower qLower h)) ||
    (searchIn.contains ("value") && row.any (fun p => !(p.2 == "") && pyInLower qLower p.2)))

def search_csv_data (data : CsvDataM) (query : String) (searchIn : List String) :
    List (List (String × String)) :=
  searchCsvLower data (lowerData query) searchIn

/-! ## Markup tree builder (`xml_element_to_node`) -/

inductive Element where
  | mk (tag : String) (attributes : List (String × String)) (text : Option String)
       (children : List Element)

def Element.tag : Element → String
  | .mk t _ _ _ => t

def Element.children : Element → List Element
  | .mk _ _ _ cs => cs

inductive XmlNode where
  | mk (tag : String) (attributes : List (String × String)) (text : Option String)
       (children : List XmlNode) (path : String) (xpath : String)

def XmlNode.tag : XmlNode → String
  | .mk t _ _ _ _ _ => t

def XmlNode.attributes : XmlNode → List (String × String)
  | .mk _ a _ _ _ _ => a

def XmlNode.text : XmlNode → Option String
  | .mk _ _ tx _ _ _ => tx

def XmlNode.children : XmlNode → List XmlNode
  | .mk _ _ _ cs _ _ => cs

def XmlNode.path : XmlNode → String
  | .mk _ _ _ _ p _ => p

def XmlNode.xpath : XmlNode → String
  | .mk _ _ _ _ _ x => x

/-- Python `str.strip()` on both ends (over the whitespace characters Lean
models). -/
def stripStr (s : String) : String :=
  ⟨((s.data.dropWhile Char.isWhitespace).reverse.dropWhile Char.isWhitespace).reverse⟩

/-- `element.text.strip() if element.text and element.text.strip() else
None`. -/
def normText : Option String → Option String
  | none => none
  | some s => let t := stripStr s; if t = "" then none else some t

mutual

/-- `xml_element_to_node(element, path, index)`. -/
def xml_element_to_node : Element → String → Nat → XmlNode
  | .mk tag attrs text cs, path, index =>
    let currentPath := if path = "" then tag else path ++ "/" ++ tag
    let xp := if index > 0 then currentPath ++ "[" ++ Nat.repr (index + 1) ++ "]"
              else currentPath
    .mk tag attrs (normText text) (xmlChildrenNodes cs currentPath (fun _ => 0))
      currentPath xp

/-- The `tag_counts` loop over the children: each child is converted with
`index` = the number of previous same-tag siblings.  The dict of counts is
modelled as a total function with default 0. -/
def xmlChildrenNodes : List Element → String → (String → Nat) → List XmlNode
  | [], _, _ => []
  | c :: cs, path, counts =>
    xml_element_to_node c path (counts c.tag) ::
      xmlChildrenNodes cs path (fun t => if t = c.tag then counts c.tag + 1 else counts t)

end

structure XmlFlatRec where
  path : String
  tag : String
  attributes : List (String × String)
  text : Option String
deriving DecidableEq

mutual

/-- `flatten_xml_node(node, result)` with its explicit accumulator. -/
def flattenXmlAux : XmlNode → List XmlFlatRec → List XmlFlatRec
  | .mk t a tx cs p _, acc => flattenXmlListAux cs (acc ++ [⟨p, t, a, tx⟩])

def flattenXmlListAux : List XmlNode → List XmlFlatRec → List XmlFlatRec
  | [], acc => acc
  | c :: cs, acc => flattenXmlListAux cs (flattenXmlAux c acc)

end

def flatten_xml_node (n : XmlNode) : List XmlFlatRec := flattenXmlAux n []

mutual

def xmlSize : XmlNode → Nat
  | .mk _ _ _ cs _ _ => 1 + xmlSizeList cs

def xmlSizeList : List XmlNode → Nat
  | [] => 0
  | c :: cs => xmlSize c + xmlSizeList cs

end

mutual

/-- All nodes of the tree in pre-order (the traversal order in which
`search_xml_node` inspects and returns nodes). -/
def xmlAllNodes : XmlNode → List XmlNode
  | .mk t a tx cs p x => .mk t a tx cs p x :: xmlAllNodesList cs

def xmlAllNodesList : List XmlNode → List XmlNode
  | [] => []
  | c :: cs => xmlAllNodes c ++ xmlAllNodesList cs

end

/-- Python truthiness of `node.text`. -/
def textTruthy : Option String → Bool
  | some t => !(t == "")
  | none => false

mutual

/-- `search_xml_node` with the query already lowercased.  The source checks
tag, then attributes `if not match_found`, then text `if not match_found`;
since matching has no side effects this equals the plain disjunction
below. -/
def searchXmlLower : XmlNode → List Char → List String → List XmlNode
  | .mk tag attrs text cs p x, qLower, searchIn =>
    let found :=
      (searchIn.contains ("tag") && pyInLower qLower tag) ||
      (searchIn.contains ("attribute") && attrs.any (fun a => pyInLower qLower a.2)) ||
      (searchIn.contains ("text") && textTruthy text &&
        (match text with | some t => pyInLower qLower t | none => false))
    (if found then [XmlNode.mk tag attrs text cs p x] else []) ++
      searchXmlLowerList cs qLower searchIn

def searchXmlLowerList : List XmlNode → List Char → List String → List XmlNode
  | [], _, _ => []
  | c :: cs, qLower, searchIn =>
    searchXmlLower c qLower searchIn ++ searchXmlLowerList cs qLower searchIn

end

def search_xml_node (n : XmlNode) (query : String) (searchIn : List String) :
    List XmlNode :=
  searchXmlLower n (lowerData query) searchIn

mutual

/-- `calculate_tree_stats(node)`: `(total_nodes, max_depth)`. -/
def calculate_tree_stats : XmlNode → Nat × Nat
  | .mk _ _ _ cs _ _ => statsFold cs (1, 1)

/-- The `for child in node.children` accumulation. -/
def statsFold : List XmlNode → Nat × Nat → Nat × Nat
  | [], acc => acc
  | c :: cs, acc =>
    statsFold cs (acc.1 + (calculate_tree_stats c).1, max acc.2 ((calculate_tree_stats c).2 + 1))

end

/-! ## Row query service (`csv_query.py`, `csv_storage.py`, router)

Persisted rows live in an external SQLite store; a row's `row_data` JSON
column normally materializes as a dict, but the service defends against it
coming back as a serialized string or as something else entirely.
`Payload` captures those three shapes; the JSON decoder (`json.loads`,
external) is a parameter `dec`, covering payloads whose decoded form is a
field map — the only shape the storage layer writes. -/

inductive Payload where
  | pdict (m : List (String × String))
  | pstr (s : String)
  | pother
deriving DecidableEq

structure DbRow where
  import_id : Nat
  row_index : Nat
  row_data : Payload
deriving DecidableEq

structure ImportRec where
  id : Nat
  total_rows : Nat
  total_columns : Nat
  headers : List String
  status : String
deriving DecidableEq

structure Db where
  imports : List ImportRec
  rows : List DbRow
deriving DecidableEq

/-- Ordering used by `query.order_by(CsvRow.row_index)`. -/
def rowLe (a b : DbRow) : Prop := a.row_index ≤ b.row_index

instance : DecidableRel rowLe := fun a b => Nat.decLe a.row_index b.row_index

instance : IsTotal DbRow rowLe := ⟨fun a b => Nat.le_total a.row_index b.row_index⟩

instance : IsTrans DbRow rowLe := ⟨fun _ _ _ => Nat.le_trans⟩

/-- The payload-normalization loop of `query_csv_rows` / `search_csv_rows`:
a dict passes through, a string is JSON-decoded (undecodable gives `{}`),
anything else gives `{}`. -/
def normalizePayload (dec : String → Option (List (String × String))) :
    Payload → List (String × String)
  | .pdict m => m
  | .pstr s => match dec s with | some m => m | none => []
  | .pother => []

/-- Is the payload neither a field map nor a decodable text blob? -/
def badPayload (dec : String → Option (List (String × String))) : Payload → Bool
  | .pdict _ => false
  | .pstr s => (dec s).isNone
  | .pother => true

/-- `json_extract(row_data, $.col)`: NULL unless the stored JSON is an
object containing the column. -/
def jsonExtract (p : Payload) (col : String) : Option String :=
  match p with
  | .pdict m => m.lookup col
  | _ => none

/-- SQLite `LIKE wqw` on an extracted cell: substring, case-insensitive
over ASCII, never matching NULL.  (`%`/`_` wildcards inside the query are
not modelled; no claim exercises them.) -/
def likeCell (q : String) (cell : Option String) : Bool :=
  match cell with
  | some s => subList (lowerData q) (lowerData s)
  | none => false

/-- The optional `{column: value}` filters of `query_csv_rows`; falsy values
are skipped. -/
def rowPassesFilters (filters : List (String × String)) (r : DbRow) : Bool :=
  filters.all (fun f => f.2 == "" || likeCell f.2 (jsonExtract r.row_data f.1))

/-- `query_csv_rows(db, import_id, page, page_size, filters)`: filter by
the import and the filters, count, order by `row_index`, window
`offset (page-1)*page_size` / `limit page_size`, normalize payloads. -/
def query_csv_rows (dec : String → Option (List (String × String))) (db : Db)
    (importId page pageSize : Nat) (filters : List (String × String)) :
    List (List (String × String)) × Nat :=
  let q := (db.rows.filter (fun r => r.import_id == importId)).filter
    (rowPassesFilters filters)
  let totalCount := q.length
  let offset := (page - 1) * pageSize
  let pageRows := ((List.insertionSort rowLe q).drop offset).take pageSize
  (pageRows.map (fun r => normalizePayload dec r.row_data), totalCount)

/-- `get_csv_import(db, import_id)`: the metadata record, or a `ValueError`
(`404` at the route) when the import is absent. -/
def get_csv_import (db : Db) (importId : Nat) : Except String ImportRec :=
  match db.imports.find? (fun imp => imp.id == importId) with
  | some imp => .ok imp
  | none => .error ("Import with ID " ++ Nat.repr importId ++ " not found")

/-- `search_csv_rows(db, import_id, query_text, columns, page, page_size)`:
requires the import to exist, then OR-combines per-column `LIKE` matches
(all headers when no columns are given), counts, orders and windows. -/
def search_csv_rows (dec : String → Option (List (String × String))) (db : Db)
    (importId : Nat) (queryText : String) (columns : Option (List String))
    (page pageSize : Nat) :
    Except String (List (List (String × String)) × Nat) :=
  match db.imports.find? (fun imp => imp.id == importId) with
  | none => .error ("Import with ID " ++ Nat.repr importId ++ " not found")
  | some imp =>
    let searchColumns :=
      match columns with
      | some cs => if cs.isEmpty then imp.headers else cs
      | none => imp.headers
    let base := db.rows.filter (fun r => r.import_id == importId)
    let q :=
      if searchColumns.isEmpty then base
      else base.filter (fun r =>
        searchColumns.any (fun c => likeCell queryText (jsonExtract r.row_data c)))
    let totalCount := q.length
    let pageRows := ((List.insertionSort rowLe q).drop ((page - 1) * pageSize)).take pageSize
    .ok (pageRows.map (fun r => normalizePayload dec r.row_data), totalCount)

structure CsvRowsResponse where
  rows : List (List (String × String))
  total_count : Nat
  page : Nat
  page_size : Nat
  total_pages : Nat
deriving DecidableEq

/-- The `GET /imports/id/rows` route: paginate via `query_csv_rows` and
report `total_pages = (total_count + page_size - 1) // page_size`. -/
def get_import_rows (dec : String → Option (List (String × String))) (db : Db)
    (importId page pageSize : Nat) : CsvRowsResponse :=
  let res := query_csv_rows dec db importId page pageSize []
  { rows := res.1, total_count := res.2, page := page, page_size := pageSize,
    total_pages := (res.2 + pageSize - 1) / pageSize }

/-! ## Specification-side definitions and concrete fixtures -/

/-- The record `flatten_xml_node` emits for one node. -/
def xmlRecOf (n : XmlNode) : XmlFlatRec :=
  ⟨n.path, n.tag, n.attributes, n.text⟩

/-- The record `flatten_csv_node` emits for one node. -/
def csvRecOf (n : CsvNode) : CsvFlatRec :=
  ⟨n.path, n.name, n.value, n.attributes⟩

/-- Number of elements of `cs` carrying tag `t`. -/
def countTag (t : String) (cs : List Element) : Nat :=
  (cs.filter (fun c => c.tag == t)).length

/-- Modelled from the spec (§4.3): the expected location identifiers of the
children of a node with path `base`, given the siblings already seen in
`prev` — the first occurrence of a tag is unindexed, the k-th repeat
carries the 1-based suffix `[k+1]`. -/
def specChildXpaths (base : String) : List Element → List Element → List String
  | _, [] => []
  | prev, c :: cs =>
    let childPath := if base = "" then c.tag else base ++ "/" ++ c.tag
    let k := countTag c.tag prev
    (if k = 0 then childPath else childPath ++ "[" ++ Nat.repr (k + 1) ++ "]") ::
      specChildXpaths base (prev ++ [c]) cs

/-- The markup document of the spec example, `<root><x/><x/></root>`. -/
def exTwoX : Element := .mk ("root") [] none [.mk ("x") [] none [], .mk ("x") [] none []]

/-- `<root><x><y/></x><x><y/></x></root>`: same-tag siblings with equal-tag
descendants. -/
def exNested : Element := .mk ("root") [] none
  [.mk ("x") [] none [.mk ("y") [] none []], .mk ("x") [] none [.mk ("y") [] none []]]

/-- A decoder that decodes nothing (its value is irrelevant to fixtures
whose payloads are all dicts). -/
def dec0 : String → Option (List (String × String)) := fun _ => none

/-- Import 1 with 25 persisted dict rows, indices 0..24. -/
def db25 : Db :=
  ⟨[⟨1, 25, 1, [("n")], ("completed")⟩],
   (List.range 25).map (fun i => ⟨1, i, .pdict [(("n"), Nat.repr i)]⟩)⟩

/-- Import 1 with three rows, the middle one holding an undecodable
payload. -/
def db6 : Db :=
  ⟨[⟨1, 3, 1, [("n")], ("completed")⟩],
   [⟨1, 0, .pdict [(("n"), ("0"))]⟩, ⟨1, 1, .pother⟩, ⟨1, 2, .pdict [(("n"), ("2"))]⟩]⟩

/-! ## Helper lemmas -/

theorem startsList_nil (l : List Char) : startsList [] l = true := by
  cases l <;> rfl

theorem subList_nil (l : List Char) : subList [] l = true := by
  cases l with
  | nil => rfl
  | cons c t => simp [subList, startsList_nil]

theorem pyInLower_nil (hay : String) : pyInLower [] hay = true :=
  subList_nil _

theorem addNewHeaders_nil (acc : List String) : addNewHeaders acc [] = acc := rfl

theorem addNewHeaders_cons (acc : List String) (h : String) (t : List String) :
    addNewHeaders acc (h :: t) =
      addNewHeaders (if h ∈ acc then acc else acc ++ [h]) t := rfl

theorem addNewHeaders_nodup :
    ∀ (hs acc : List String), acc.Nodup → (addNewHeaders acc hs).Nodup := by
  intro hs
  induction hs with
  | nil => intro acc hacc; exact hacc
  | cons h t ih =>
    intro acc hacc
    rw [addNewHeaders_cons]
    by_cases hmem : h ∈ acc
    · rw [if_pos hmem]; exact ih acc hacc
    · rw [if_neg hmem]
      refine ih (acc ++ [h]) ?_
      simp [List.nodup_append, hacc, hmem]

theorem addNewHeaders_of_disjoint :
    ∀ (hs acc : List String), hs.Nodup → (∀ x ∈ hs, x ∉ acc) →
      addNewHeaders acc hs = acc ++ hs := by
  intro hs
  induction hs with
  | nil => intro acc _ _; simp [addNewHeaders_nil]
  | cons h t ih =>
    intro acc hnd hdisj
    rw [addNewHeaders_cons, if_neg (hdisj h (List.mem_cons_self h t))]
    rw [ih (acc ++ [h]) (List.Nodup.of_cons hnd) ?_]
    · simp
    · intro x hx
      simp only [List.mem_append, List.mem_singleton]
      rintro (hxa | rfl)
      · exact hdisj x (List.mem_cons_of_mem h hx) hxa
      · exact (List.nodup_cons.mp hnd).1 hx

theorem foldl_addNewHeaders_nodup :
    ∀ (bs : List Blob) (acc : List String), acc.Nodup →
      (bs.foldl (fun acc b => addNewHeaders acc b.header) acc).Nodup := by
  intro bs
  induction bs with
  | nil => intro acc hacc; exact hacc
  | cons b t ih =>
    intro acc hacc
    exact ih (addNewHeaders acc b.header) (addNewHeaders_nodup _ _ hacc)

/-! ## C1 -/

/-- C1 (counterexample): the claim quantifies over both `combine_csv_files`
implementations.  The standalone script variant returns the *sorted* union
(`["a", "b"]` for headers seen in order `b`, `a` — not the first-seen order
`["b", "a"]`), and the backend variant keeps a duplicated name inside
blob 0's own header row, so the columns are not always a duplicate-free
first-seen union. -/
theorem combiner_columns_counterexample :
    scriptsCombineHeaders [⟨[("b")], []⟩, ⟨[("a")], []⟩] = [("a"), ("b")]
    ∧ scriptsCombineHeaders [⟨[("b")], []⟩, ⟨[("a")], []⟩] ≠ [("b"), ("a")]
    ∧ combineHeaders [⟨[("a"), ("a")], [[("1"), ("2")]]⟩] = [("a"), ("a")]
    ∧ ¬ (combineHeaders [⟨[("a"), ("a")], [[("1"), ("2")]]⟩]).Nodup :=
  ⟨rfl, by decide, rfl, by decide⟩

/-- C1 (amended): for the backend Combiner, whenever the first blob's own
header row is duplicate-free, the combined columns are exactly the ordered
first-seen union of the blobs' headers — blob 0's order first, then each
later blob's new names in that blob's order — with no duplicates, and any
table `combine_csv_files` returns carries exactly those columns. -/
theorem combiner_columns_first_seen (blobs : List Blob)
    (h : ∀ b0, blobs.head? = some b0 → b0.header.Nodup) :
    combineHeaders blobs = specFirstSeenUnion (blobs.map (·.header))
    ∧ (combineHeaders blobs).Nodup
    ∧ ∀ d, combine_csv_files blobs = .ok d → d.headers = combineHeaders blobs := by
  refine ⟨?_, ?_, ?_⟩
  · cases blobs with
    | nil => rfl
    | cons b0 rest =>
      have hb0 : b0.header.Nodup := h b0 rfl
      show rest.foldl (fun acc b => addNewHeaders acc b.header) b0.header =
        ((b0 :: rest).map (·.header)).foldl addNewHeaders []
      rw [List.map_cons, List.foldl_cons,
        addNewHeaders_of_disjoint b0.header [] hb0 (by simp),
        List.nil_append, List.foldl_map]
  · cases blobs with
    | nil => exact List.nodup_nil
    | cons b0 rest =>
      exact foldl_addNewHeaders_nodup rest b0.header (h b0 rfl)
  · intro d hd
    unfold combine_csv_files at hd
    dsimp only at hd
    split at hd
    · cases hd; rfl
    · cases hd

/-- C1 (witness): the amended theorem applied to two concrete blobs with
overlapping headers. -/
theorem combiner_columns_first_seen_witness :
    (∀ b0, ([⟨[("a"), ("b")], []⟩, ⟨[("b"), ("c")], []⟩] : List Blob).head? = some b0 →
      b0.header.Nodup)
    ∧ (combineHeaders [⟨[("a"), ("b")], []⟩, ⟨[("b"), ("c")], []⟩] =
        specFirstSeenUnion (([⟨[("a"), ("b")], []⟩, ⟨[("b"), ("c")], []⟩] : List Blob).map
          (·.header))
      ∧ (combineHeaders [⟨[("a"), ("b")], []⟩, ⟨[("b"), ("c")], []⟩]).Nodup
      ∧ ∀ d, combine_csv_files [⟨[("a"), ("b")], []⟩, ⟨[("b"), ("c")], []⟩] = .ok d →
          d.headers = combineHeaders [⟨[("a"), ("b")], []⟩, ⟨[("b"), ("c")], []⟩]) := by
  have hyp : ∀ b0, ([⟨[("a"), ("b")], []⟩, ⟨[("b"), ("c")], []⟩] : List Blob).head? = some b0 →
      b0.header.Nodup := by
    intro b0 hb
    cases hb
    decide
  exact ⟨hyp, combiner_columns_first_seen _ hyp⟩

/-! ## C2 -/

/-- C2 (code bug): on the blob with header row `a,b` and the single short
data row `1`, `csv.DictReader` fills the missing trailing field with Python
`None`, `row.get("b", "")` returns that `None` (the key *is* present), so
the combined record's `b` cell is a null value rather than the empty
string, and the subsequent `CsvRow(data=row)` validation of the
`Dict[str, str]` field rejects the record. -/
theorem combiner_short_row_null_cell :
    combineRows [⟨[("a"), ("b")], [[("1")]]⟩] (combineHeaders [⟨[("a"), ("b")], [[("1")]]⟩])
      = [[(("a"), some ("1")), (("b"), (none : Option String))]]
    ∧ combine_csv_files [⟨[("a"), ("b")], [[("1")]]⟩] = .error pydanticNoneMsg :=
  ⟨rfl, rfl⟩

/-! ## Flatten: accumulator lemmas and C7, C8 -/

mutual

theorem flattenCsvAux_app : ∀ (n : CsvNode) (acc : List CsvFlatRec),
    flattenCsvAux n acc = acc ++ flattenCsvAux n []
  | .mk nm p v cs attrs, acc => by
    rw [flattenCsvAux, flattenCsvAux,
      flattenCsvListAux_app cs
        (acc ++ [({path := p, name := nm, value := v, attributes := attrs} : CsvFlatRec)]),
      flattenCsvListAux_app cs
        ([] ++ [({path := p, name := nm, value := v, attributes := attrs} : CsvFlatRec)])]
    simp

theorem flattenCsvListAux_app : ∀ (cs : List CsvNode) (acc : List CsvFlatRec),
    flattenCsvListAux cs acc = acc ++ flattenCsvListAux cs []
  | [], acc => by simp [flattenCsvListAux]
  | c :: cs, acc => by
    rw [flattenCsvListAux, flattenCsvListAux,
      flattenCsvListAux_app cs (flattenCsvAux c acc),
      flattenCsvListAux_app cs (flattenCsvAux c []),
      flattenCsvAux_app c acc]
    simp

end

theorem flattenCsvListAux_nil_eq : ∀ cs : List CsvNode,
    flattenCsvListAux cs [] = (cs.map flatten_csv_node).flatten
  | [] => rfl
  | c :: cs => by
    rw [flattenCsvListAux, flattenCsvListAux_app cs (flattenCsvAux c []),
      flattenCsvListAux_nil_eq cs]
    simp [flatten_csv_node]

theorem flatten_csv_node_preorder (n : CsvNode) :
    flatten_csv_node n = csvRecOf n :: (n.children.map flatten_csv_node).flatten := by
  cases n with
  | mk nm p v cs attrs =>
    show flattenCsvAux (.mk nm p v cs attrs) [] = _
    rw [flattenCsvAux,
      flattenCsvListAux_app cs
        ([] ++ [({path := p, name := nm, value := v, attributes := attrs} : CsvFlatRec)]),
      flattenCsvListAux_nil_eq cs]
    simp [csvRecOf, CsvNode.path, CsvNode.name, CsvNode.value, CsvNode.attributes,
      CsvNode.children]

mutual

theorem flatten_csv_node_length : ∀ n : CsvNode,
    (flatten_csv_node n).length = csvSize n
  | .mk nm p v cs attrs => by
    unfold flatten_csv_node
    rw [flattenCsvAux,
      flattenCsvListAux_app cs
        ([] ++ [({path := p, name := nm, value := v, attributes := attrs} : CsvFlatRec)]),
      List.length_append, flattenCsvList_nil_length cs, csvSize]
    simp [Nat.add_comm]

theorem flattenCsvList_nil_length : ∀ cs : List CsvNode,
    (flattenCsvListAux cs []).length = csvSizeList cs
  | [] => rfl
  | c :: cs => by
    rw [flattenCsvListAux, flattenCsvListAux_app cs (flattenCsvAux c []),
      List.length_append, flattenCsvList_nil_length cs, csvSizeList]
    have hc : (flattenCsvAux c []).length = csvSize c := flatten_csv_node_length c
    rw [hc]

end

mutual

theorem flattenXmlAux_app : ∀ (n : XmlNode) (acc : List XmlFlatRec),
    flattenXmlAux n acc = acc ++ flattenXmlAux n []
  | .mk t a tx cs p x, acc => by
    rw [flattenXmlAux, flattenXmlAux,
      flattenXmlListAux_app cs
        (acc ++ [({path := p, tag := t, attributes := a, text := tx} : XmlFlatRec)]),
      flattenXmlListAux_app cs
        ([] ++ [({path := p, tag := t, attributes := a, text := tx} : XmlFlatRec)])]
    simp

theorem flattenXmlListAux_app : ∀ (cs : List XmlNode) (acc : List XmlFlatRec),
    flattenXmlListAux cs acc = acc ++ flattenXmlListAux cs []
  | [], acc => by simp [flattenXmlListAux]
  | c :: cs, acc => by
    rw [flattenXmlListAux, flattenXmlListAux,
      flattenXmlListAux_app cs (flattenXmlAux c acc),
      flattenXmlListAux_app cs (flattenXmlAux c []),
      flattenXmlAux_app c acc]
    simp

end

theorem flattenXmlListAux_nil_eq : ∀ cs : List XmlNode,
    flattenXmlListAux cs [] = (cs.map flatten_xml_node).flatten
  | [] => rfl
  | c :: cs => by
    rw [flattenXmlListAux, flattenXmlListAux_app cs (flattenXmlAux c []),
      flattenXmlListAux_nil_eq cs]
    simp [flatten_xml_node]

theorem flatten_xml_node_preorder (n : XmlNode) :
    flatten_xml_node n = xmlRecOf n :: (n.children.map flatten_xml_node).flatten := by
  cases n with
  | mk t a tx cs p x =>
    show flattenXmlAux (.mk t a tx cs p x) [] = _
    rw [flattenXmlAux,
      flattenXmlListAux_app cs
        ([] ++ [({path := p, tag := t, attributes := a, text := tx} : XmlFlatRec)]),
      flattenXmlListAux_nil_eq cs]
    simp [xmlRecOf, XmlNode.path, XmlNode.tag, XmlNode.attributes, XmlNode.text,
      XmlNode.children]

mutual

theorem flatten_xml_node_length : ∀ n : XmlNode,
    (flatten_xml_node n).length = xmlSize n
  | .mk t a tx cs p x => by
    unfold flatten_xml_node
    rw [flattenXmlAux,
      flattenXmlListAux_app cs
        ([] ++ [({path := p, tag := t, attributes := a, text := tx} : XmlFlatRec)]),
      List.length_append, flattenXmlList_nil_length cs, xmlSize]
    simp [Nat.add_comm]

theorem flattenXmlList_nil_length : ∀ cs : List XmlNode,
    (flattenXmlListAux cs []).length = xmlSizeList cs
  | [] => rfl
  | c :: cs => by
    rw [flattenXmlListAux, flattenXmlListAux_app cs (flattenXmlAux c []),
      List.length_append, flattenXmlList_nil_length cs, xmlSizeList]
    have hc : (flattenXmlAux c []).length = xmlSize c := flatten_xml_node_length c
    rw [hc]

end

/-- C8: on every finite tree, `flatten_xml_node` (resp. `flatten_csv_node`)
called with no accumulator returns exactly one record per node — its length
is the node count — in pre-order: the root's record first, followed by the
flattenings of the children's subtrees in child order, so all records of a
child's subtree precede those of its later siblings.  The embedding of the
no-accumulator call is a pure function of the tree, so repeated calls agree
by reflexivity. -/
theorem flatten_preorder_and_size :
    (∀ n : XmlNode,
      flatten_xml_node n = xmlRecOf n :: (n.children.map flatten_xml_node).flatten
      ∧ (flatten_xml_node n).length = xmlSize n)
    ∧ (∀ n : CsvNode,
      flatten_csv_node n = csvRecOf n :: (n.children.map flatten_csv_node).flatten
      ∧ (flatten_csv_node n).length = csvSize n) :=
  ⟨fun n => ⟨flatten_xml_node_preorder n, flatten_xml_node_length n⟩,
   fun n => ⟨flatten_csv_node_preorder n, flatten_csv_node_length n⟩⟩

/-- C7: the Hierarchy Synthesizer applied to the columns
`["a_b_c", "a_b_d"]` yields a root with exactly one child `a`, which has
exactly one child `b`, which has exactly the two children `c` and `d`, and
every node of the tree (root included) carries no value. -/
theorem hierarchy_synthesizer_example :
    csv_to_hierarchical ⟨[("a_b_c"), ("a_b_d")], [], 0, 0⟩ =
      .mk ("root") ("/root") none
        [.mk ("a") ("/a") none
          [.mk ("b") ("/a/b") none
            [.mk ("c") ("/a/b/c") none [] [], .mk ("d") ("/a/b/d") none [] []] []] []] [] :=
  rfl

/-! ## Markup builder: C3 -/

theorem xml_element_to_node_mk (tag : String) (attrs : List (String × String))
    (text : Option String) (cs : List Element) (path : String) (index : Nat) :
    xml_element_to_node (.mk tag attrs text cs) path index =
      .mk tag attrs (normText text)
        (xmlChildrenNodes cs (if path = "" then tag else path ++ "/" ++ tag) (fun _ => 0))
        (if path = "" then tag else path ++ "/" ++ tag)
        (if index > 0 then
          (if path = "" then tag else path ++ "/" ++ tag) ++ "[" ++ Nat.repr (index + 1) ++ "]"
         else if path = "" then tag else path ++ "/" ++ tag) := by
  rw [xml_element_to_node]

theorem countTag_append (t : String) (prev : List Element) (c : Element) :
    countTag t (prev ++ [c]) = countTag t prev + if c.tag == t then 1 else 0 := by
  unfold countTag
  rw [List.filter_append]
  by_cases h : c.tag == t
  · simp [List.filter, h]
  · simp only [List.filter, h]
    simp [Bool.of_not_eq_true h]

theorem xmlChildrenNodes_xpaths :
    ∀ (cs : List Element) (base : String) (counts : String → Nat) (prev : List Element),
      (∀ t, counts t = countTag t prev) →
      (xmlChildrenNodes cs base counts).map XmlNode.xpath = specChildXpaths base prev cs := by
  intro cs
  induction cs with
  | nil => intro base counts prev hc; rfl
  | cons c cs ih =>
    intro base counts prev hc
    cases c with
    | mk ctag cattrs ctext ccs =>
      rw [xmlChildrenNodes, specChildXpaths, List.map_cons, xml_element_to_node_mk]
      dsimp only [Element.tag]
      simp only [XmlNode.xpath]
      congr 1
      · rw [hc ctag]
        rcases Nat.eq_zero_or_pos (countTag ctag prev) with hz | hp
        · rw [hz]; simp
        · rw [if_pos hp, if_neg (Nat.pos_iff_ne_zero.mp hp)]
      · refine ih base _ (prev ++ [.mk ctag cattrs ctext ccs]) ?_
        intro t
        rw [countTag_append]
        dsimp only [Element.tag]
        by_cases ht : t = ctag
        · subst ht; simp [hc t]
        · have hbe : (ctag == t) = false := by simp [Ne.symm ht]
          rw [hbe]
          simp [hc t, ht]

/-- C3 (counterexample): location identifiers are not unique within a tree.
Building `<root><x><y/></x><x><y/></x></root>` gives the two `y` nodes the
same `xpath` (`root/x/y`) because children derive their paths from the
parent's *unindexed* `path`; the `path` field is not even unique among the
two `x` siblings. -/
theorem xpath_not_unique_counterexample :
    (xmlAllNodes (xml_element_to_node exNested ("") 0)).map XmlNode.xpath =
      [("root"), ("root/x"), ("root/x/y"), ("root/x[2]"), ("root/x/y")]
    ∧ ¬ ((xmlAllNodes (xml_element_to_node exNested ("") 0)).map XmlNode.xpath).Nodup
    ∧ ¬ ((xmlAllNodes (xml_element_to_node exNested ("") 0)).map XmlNode.path).Nodup :=
  ⟨rfl, by decide, by decide⟩

/-- C3 (amended): within one sibling group the builder disambiguates
same-tag children in `xpath`: each child's identifier is the parent path
extended by its tag, with the first occurrence of a tag unindexed and the
k-th repeat carrying the 1-based suffix `[k+1]` — so
`<root><x/><x/></root>` yields two children labeled `x` with the distinct
identifiers `root/x` and `root/x[2]`.  (Tree-wide uniqueness fails, see the
counterexample.) -/
theorem sibling_xpath_indexing :
    (∀ (e : Element) (path : String) (index : Nat),
      (xml_element_to_node e path index).children.map XmlNode.xpath =
        specChildXpaths (xml_element_to_node e path index).path [] e.children)
    ∧ (xml_element_to_node exTwoX ("") 0).children.map XmlNode.tag = [("x"), ("x")]
    ∧ (xml_element_to_node exTwoX ("") 0).children.map XmlNode.xpath =
        [("root/x"), ("root/x[2]")]
    ∧ (("root/x") : String) ≠ ("root/x[2]")
    ∧ calculate_tree_stats (xml_element_to_node exTwoX ("") 0) = (3, 2) := by
  refine ⟨?_, rfl, rfl, by decide, rfl⟩
  intro e path index
  cases e with
  | mk tag attrs text cs =>
    rw [xml_element_to_node_mk]
    simp only [XmlNode.children, XmlNode.path]
    exact xmlChildrenNodes_xpaths cs _ (fun _ => 0) [] (fun t => rfl)

/-! ## Search: C4 -/

theorem lowerData_empty : lowerData ("") = [] := rfl

mutual

theorem searchXml_empty_tag : ∀ (n : XmlNode) (si : List String),
    si.contains ("tag") = true → searchXmlLower n [] si = xmlAllNodes n
  | .mk t a tx cs p x, si, h => by
    rw [searchXmlLower.eq_def, xmlAllNodes]
    have hmem : ("tag" : String) ∈ si := List.mem_of_elem_eq_true h
    simp [hmem, pyInLower_nil, searchXmlList_empty_tag cs si h]

theorem searchXmlList_empty_tag : ∀ (cs : List XmlNode) (si : List String),
    si.contains ("tag") = true → searchXmlLowerList cs [] si = xmlAllNodesList cs
  | [], _, _ => rfl
  | c :: cs, si, h => by
    rw [searchXmlLowerList, xmlAllNodesList,
      searchXml_empty_tag c si h, searchXmlList_empty_tag cs si h]

end

/-- C4 (counterexample): with only the text (resp. value) field enabled, the
empty query does not match a node without text (resp. a row whose only cell
is the empty string), so the empty query does not match every node/row
whenever merely *some* match field is enabled. -/
theorem empty_query_not_matching_all :
    search_xml_node (.mk ("x") [] none [] ("x") ("x")) ("") [("text")] = []
    ∧ xmlAllNodes (.mk ("x") [] none [] ("x") ("x")) = [.mk ("x") [] none [] ("x") ("x")]
    ∧ search_csv_data ⟨[("a")], [[(("a"), (""))]], 1, 1⟩ ("") [("value")] = []
    ∧ (⟨[("a")], [[(("a"), (""))]], 1, 1⟩ : CsvDataM).rows.length = 1 :=
  ⟨rfl, rfl, rfl, rfl⟩

/-- C4 (amended): search is case-insensitive — the result depends only on
the lowercased query, for trees and rows alike — and the empty query
matches every node when the tag field is enabled, and every row when the
header field is enabled and the table has at least one column.  (With only
attribute/text/value fields enabled, nodes lacking those features do not
match, see the counterexample.) -/
theorem search_case_fold_and_empty_query :
    (∀ (n : XmlNode) (si : List String) (q1 q2 : String), lowerData q1 = lowerData q2 →
      search_xml_node n q1 si = search_xml_node n q2 si)
    ∧ (∀ (d : CsvDataM) (si : List String) (q1 q2 : String), lowerData q1 = lowerData q2 →
      search_csv_data d q1 si = search_csv_data d q2 si)
    ∧ (∀ (n : XmlNode) (si : List String), si.contains ("tag") = true →
      search_xml_node n ("") si = xmlAllNodes n)
    ∧ (∀ (d : CsvDataM) (si : List String), si.contains ("header") = true →
      d.headers ≠ [] → search_csv_data d ("") si = d.rows) := by
  refine ⟨?_, ?_, ?_, ?_⟩
  · intro n si q1 q2 hq
    unfold search_xml_node
    rw [hq]
  · intro d si q1 q2 hq
    unfold search_csv_data
    rw [hq]
  · intro n si h
    unfold search_xml_node
    rw [lowerData_empty]
    exact searchXml_empty_tag n si h
  · intro d si h hne
    unfold search_csv_data searchCsvLower
    rw [lowerData_empty]
    refine List.filter_eq_self.mpr ?_
    intro row _
    obtain ⟨x, hx⟩ := List.exists_mem_of_ne_nil d.headers hne
    have hany : d.headers.any (fun hd => pyInLower [] hd) = true :=
      List.any_eq_true.mpr ⟨x, hx, pyInLower_nil x⟩
    have hmem : ("header" : String) ∈ si := List.mem_of_elem_eq_true h
    simp [hany, hmem]

/-- C4 (witness): the amended theorem applied at concrete inputs — a
mixed-case query against its lowercase form, and empty queries with the
tag/header field enabled. -/
theorem search_case_fold_and_empty_query_witness :
    (lowerData ("AbC") = lowerData ("abc")
      ∧ search_xml_node (.mk ("x") [] none [] ("x") ("x")) ("AbC") [("tag")] =
          search_xml_node (.mk ("x") [] none [] ("x") ("x")) ("abc") [("tag")]
      ∧ search_csv_data ⟨[("a")], [[(("a"), ("v"))]], 1, 1⟩ ("AbC") [("value")] =
          search_csv_data ⟨[("a")], [[(("a"), ("v"))]], 1, 1⟩ ("abc") [("value")])
    ∧ (([("tag")] : List String).contains ("tag") = true
      ∧ search_xml_node (.mk ("abc") [] none [] ("abc") ("abc")) ("") [("tag")] =
          xmlAllNodes (.mk ("abc") [] none [] ("abc") ("abc")))
    ∧ ((⟨[("a")], [[(("a"), ("v"))]], 1, 1⟩ : CsvDataM).headers ≠ []
      ∧ search_csv_data ⟨[("a")], [[(("a"), ("v"))]], 1, 1⟩ ("") [("header")] =
          (⟨[("a")], [[(("a"), ("v"))]], 1, 1⟩ : CsvDataM).rows) := by
  have hq : lowerData ("AbC") = lowerData ("abc") := by decide
  refine ⟨⟨hq, search_case_fold_and_empty_query.1 _ _ _ _ hq,
    search_case_fold_and_empty_query.2.1 _ _ _ _ hq⟩, ⟨by decide, ?_⟩, ⟨by decide, ?_⟩⟩
  · exact search_case_fold_and_empty_query.2.2.1 _ _ (by decide)
  · exact search_case_fold_and_empty_query.2.2.2 _ _ (by decide) (by decide)

/-! ## C9 -/

/-- C9 (counterexample): `combine_csv_files` itself does not reject an empty
input list — it returns the empty table (no columns, no rows) without any
error. -/
theorem combiner_empty_input_returns_table :
    combine_csv_files [] = .ok ⟨[], [], 0, 0⟩ := rfl

/-- C9 (amended): the rejection of zero blobs happens in the caller: the
upload route raises the caller error (`No files provided`, HTTP 400) before
`combine_csv_files` runs, whereas `combine_csv_files` applied to zero blobs
returns an empty table. -/
theorem empty_upload_rejected_at_route :
    parse_csv_batch [] = .error ("No files provided")
    ∧ combine_csv_files [] = .ok ⟨[], [], 0, 0⟩ :=
  ⟨rfl, rfl⟩

/-! ## Row query service: C5, C6, C10 -/

theorem rowPassesFilters_nil (r : DbRow) : rowPassesFilters [] r = true := rfl

theorem filter_rowPassesFilters_nil (l : List DbRow) :
    l.filter (rowPassesFilters []) = l :=
  List.filter_eq_self.mpr (fun _ _ => rfl)

/-- `query_csv_rows` without filters, written as the sorted window over
the import's rows. -/
theorem query_csv_rows_eq (dec : String → Option (List (String × String)))
    (db : Db) (importId page pageSize : Nat) :
    query_csv_rows dec db importId page pageSize [] =
      ((((List.insertionSort rowLe (db.rows.filter (fun r => r.import_id == importId))).drop
          ((page - 1) * pageSize)).take pageSize).map
            (fun r => normalizePayload dec r.row_data),
       (db.rows.filter (fun r => r.import_id == importId)).length) := by
  unfold query_csv_rows
  rw [filter_rowPassesFilters_nil]

/-- C5: without filters the fetch reports the import's full row count,
returns exactly the rows of the `row_index`-sorted sequence after skipping
`(page-1)*page_size` of them and taking at most `page_size` (so the page is
sorted by `row_index` and its length is `min page_size (total - offset)`),
and the rows endpoint reports `total_pages = ⌈total_count / page_size⌉`; in
particular for 25 rows with `page_size = 10`, `total_pages = 3`, page 3
holds exactly 5 rows and page 4 holds 0 rows while still producing a normal
response. -/
theorem pagination_window_and_total_pages
    (dec : String → Option (List (String × String))) (db : Db)
    (importId page pageSize : Nat) :
    (query_csv_rows dec db importId page pageSize []).2 =
        (db.rows.filter (fun r => r.import_id == importId)).length
    ∧ (query_csv_rows dec db importId page pageSize []).1 =
        (((List.insertionSort rowLe (db.rows.filter (fun r => r.import_id == importId))).drop
          ((page - 1) * pageSize)).take pageSize).map
            (fun r => normalizePayload dec r.row_data)
    ∧ List.Pairwise rowLe
        (((List.insertionSort rowLe (db.rows.filter (fun r => r.import_id == importId))).drop
          ((page - 1) * pageSize)).take pageSize)
    ∧ (query_csv_rows dec db importId page pageSize []).1.length =
        min pageSize
          ((query_csv_rows dec db importId page pageSize []).2 - (page - 1) * pageSize)
    ∧ (query_csv_rows dec db importId page pageSize []).1.length ≤ pageSize
    ∧ (get_import_rows dec db importId page pageSize).total_pages =
        (query_csv_rows dec db importId page pageSize []).2 ⌈/⌉ pageSize
    ∧ (get_import_rows dec0 db25 1 3 10).rows.length = 5
    ∧ (get_import_rows dec0 db25 1 4 10).rows.length = 0
    ∧ (get_import_rows dec0 db25 1 1 10).total_pages = 3
    ∧ (get_import_rows dec0 db25 1 1 10).total_count = 25 := by
  have hlen : (List.insertionSort rowLe
      (db.rows.filter (fun r => r.import_id == importId))).length =
      (db.rows.filter (fun r => r.import_id == importId)).length :=
    (List.perm_insertionSort _ _).length_eq
  have h4 : (query_csv_rows dec db importId page pageSize []).1.length =
      min pageSize
        ((query_csv_rows dec db importId page pageSize []).2 - (page - 1) * pageSize) := by
    rw [query_csv_rows_eq]
    simp [List.length_take, List.length_drop, hlen, Nat.min_comm]
  refine ⟨by rw [query_csv_rows_eq], by rw [query_csv_rows_eq], ?_, h4,
    h4 ▸ Nat.min_le_left _ _, ?_, by decide, by decide, by decide, by decide⟩
  · exact List.Pairwise.sublist
      ((List.take_sublist _ _).trans (List.drop_sublist _ _))
      (List.sorted_insertionSort rowLe _)
  · unfold get_import_rows
    dsimp only
    rw [query_csv_rows_eq, Nat.ceilDiv_eq_add_pred_div]

/-- C6: on any page, a persisted row whose payload is neither a field map
nor a decodable text blob is returned as the empty field map, while every
row of the page whose payload is a field map is returned unchanged — the
fetch still succeeds (it is total in the model, mirroring the caught
exception). -/
theorem corrupt_payload_local_recovery
    (dec : String → Option (List (String × String))) (db : Db)
    (importId page pageSize i : Nat) (r : DbRow)
    (hi : (((List.insertionSort rowLe (db.rows.filter (fun r => r.import_id == importId))).drop
        ((page - 1) * pageSize)).take pageSize)[i]? = some r)
    (hbad : badPayload dec r.row_data = true) :
    (query_csv_rows dec db importId page pageSize []).1[i]? = some []
    ∧ ∀ (j : Nat) (r2 : DbRow) (m : List (String × String)),
        (((List.insertionSort rowLe (db.rows.filter (fun r => r.import_id == importId))).drop
          ((page - 1) * pageSize)).take pageSize)[j]? = some r2 →
        r2.row_data = .pdict m →
        (query_csv_rows dec db importId page pageSize []).1[j]? = some m := by
  constructor
  · rw [query_csv_rows_eq]
    dsimp only
    rw [List.getElem?_map, hi]
    cases hr : r.row_data with
    | pdict m => rw [hr] at hbad; exact absurd hbad (by simp [badPayload])
    | pstr s =>
      rw [hr] at hbad
      have hdec : dec s = none := Option.isNone_iff_eq_none.mp hbad
      simp [hr, normalizePayload, hdec]
    | pother => simp [hr, normalizePayload]
  · intro j r2 m hj hm
    rw [query_csv_rows_eq]
    dsimp only
    rw [List.getElem?_map, hj]
    simp [normalizePayload, hm]

/-- C6 (witness): the recovery theorem applied to a concrete page whose
middle row's payload is undecodable. -/
theorem corrupt_payload_local_recovery_witness :
    ((((List.insertionSort rowLe (db6.rows.filter (fun r => r.import_id == 1))).drop
        ((1 - 1) * 100)).take 100)[1]? = some ⟨1, 1, .pother⟩)
    ∧ badPayload dec0 Payload.pother = true
    ∧ ((query_csv_rows dec0 db6 1 1 100 []).1[1]? = some []
      ∧ ∀ (j : Nat) (r2 : DbRow) (m : List (String × String)),
          (((List.insertionSort rowLe (db6.rows.filter (fun r => r.import_id == 1))).drop
            ((1 - 1) * 100)).take 100)[j]? = some r2 →
          r2.row_data = .pdict m →
          (query_csv_rows dec0 db6 1 1 100 []).1[j]? = some m) := by
  have h1 : (((List.insertionSort rowLe (db6.rows.filter (fun r => r.import_id == 1))).drop
      ((1 - 1) * 100)).take 100)[1]? = some ⟨1, 1, .pother⟩ := by decide
  have h2 : badPayload dec0 Payload.pother = true := rfl
  exact ⟨h1, h2, corrupt_payload_local_recovery dec0 db6 1 1 100 1 ⟨1, 1, .pother⟩ h1 h2⟩

/-- C10: for an import identifier that no stored import carries (with rows
only ever referencing stored imports, per the schema's foreign key), the
paginated fetch returns the empty page and total count 0 without any error,
while both the row search and the metadata fetch fail with the not-found
error for that identifier. -/
theorem absent_import_id_behaviour
    (dec : String → Option (List (String × String))) (db : Db) (importId : Nat)
    (q : String) (cols : Option (List String)) (page pageSize : Nat)
    (hfk : ∀ r ∈ db.rows, ∃ imp ∈ db.imports, r.import_id = imp.id)
    (habs : ∀ imp ∈ db.imports, imp.id ≠ importId) :
    query_csv_rows dec db importId page pageSize [] = ([], 0)
    ∧ search_csv_rows dec db importId q cols page pageSize =
        .error ("Import with ID " ++ Nat.repr importId ++ " not found")
    ∧ get_csv_import db importId =
        .error ("Import with ID " ++ Nat.repr importId ++ " not found") := by
  have hfil : db.rows.filter (fun r => r.import_id == importId) = [] := by
    rw [List.filter_eq_nil_iff]
    intro r hr
    obtain ⟨imp, himp, heq⟩ := hfk r hr
    simp [heq, habs imp himp]
  have hfind : db.imports.find? (fun imp => imp.id == importId) = none := by
    rw [List.find?_eq_none]
    intro imp himp
    simp [habs imp himp]
  refine ⟨?_, ?_, ?_⟩
  · rw [query_csv_rows_eq, hfil]
    simp
  · unfold search_csv_rows
    rw [hfind]
  · unfold get_csv_import
    rw [hfind]

/-- C10 (witness): the theorem applied to a concrete store that holds
only import 1, queried for the absent import 2. -/
theorem absent_import_id_behaviour_witness :
    (∀ r ∈ db6.rows, ∃ imp ∈ db6.imports, r.import_id = imp.id)
    ∧ (∀ imp ∈ db6.imports, imp.id ≠ 2)
    ∧ (query_csv_rows dec0 db6 2 1 100 [] = ([], 0)
      ∧ search_csv_rows dec0 db6 2 ("x") none 1 100 =
          .error ("Import with ID " ++ Nat.repr 2 ++ " not found")
      ∧ get_csv_import db6 2 = .error ("Import with ID " ++ Nat.repr 2 ++ " not found")) := by
  have h1 : ∀ r ∈ db6.rows, ∃ imp ∈ db6.imports, r.import_id = imp.id := by decide
  have h2 : ∀ imp ∈ db6.imports, imp.id ≠ 2 := by decide
  exact ⟨h1, h2, absent_import_id_behaviour dec0 db6 2 ("x") none 1 100 h1 h2⟩

end XmlViz
